import Mathlib

/-!
Verification of the Fleet Rollout & Validation Engine
(`src/zcp_rollout/orchestrator.py`, `src/zcp_rollout/models.py`,
`src/zcp_validate/nrdb_client.py`, `src/zcp_validate/validator.py`,
`src/zcp_validate/models.py`).

Python floats are modelled as `ℚ`, wall-clock timestamps (`time.time()`)
as `ℚ` passed explicitly, and exceptions as `Except String`.  A Python
`dict` keyed by hostname is modelled as an association list with
insert-or-overwrite semantics (`dictInsert`); the thread pool of
`RolloutOrchestrator.execute` is determinised to submission order — every
property proved below is order-independent (key multisets, counts, and
per-key lookups), matching the guarantee of the spec that "the final
report is order-independent".  Event publication on the bus and wall-clock
duration measurement are side effects with no bearing on the reported
values; durations measured from the clock are modelled as `0`.
-/

set_option autoImplicit false

namespace Nrdot

/-! ## Rollout data model — `src/zcp_rollout/models.py` -/

/-- `RolloutHost` (models.py lines 10-19). -/
structure RolloutHost where
  hostname : String
  ssh_user : Option String := none
  ssh_port : Nat := 22
  use_sudo : Bool := false
  target_path : String := "/etc/newrelic-infra/integrations.d/"
  deriving Repr, DecidableEq

/-- `RolloutJob` (models.py lines 22-31). `parallel` is the worker-pool
bound, `timeout_s` the declared per-host timeout. -/
structure RolloutJob where
  hosts : List RolloutHost
  config_content : String
  config_filename : String
  checksum : String
  parallel : Nat := 10
  timeout_s : Nat := 30
  deriving Repr, DecidableEq

/-- `HostResult` (models.py lines 55-62). -/
structure HostResult where
  hostname : String
  success : Bool
  message : String
  duration_ms : ℚ := 0
  deriving Repr, DecidableEq

/-- `RolloutReport` (models.py lines 65-72); `results` is the
hostname-keyed dict. -/
structure RolloutReport where
  success : Nat
  fail : Nat
  duration_s : ℚ
  results : List (String × HostResult)
  deriving Repr, DecidableEq

/-- Python `dict` assignment `d[k] = v`: overwrite in place if the key is
present, else append at the end. -/
def dictInsert {α : Type} (k : String) (v : α) :
    List (String × α) → List (String × α)
  | [] => [(k, v)]
  | (k', v') :: rest =>
      if k' = k then (k, v) :: rest else (k', v') :: dictInsert k v rest

/-! ## Transport backend — `src/zcp_rollout/backends.py`

A backend is the pair of per-host operations `transfer`/`restart`
(`BaseBackend` protocol, backends.py lines 14-43).  Each either returns a
`HostResult` or raises (`Except.error`), covering arbitrary duck-typed
backends including buggy ones. -/

structure Backend where
  transfer : RolloutHost → String → String → Except String HostResult
  restart : RolloutHost → Except String HostResult

/-- `PrintBackend` (backends.py lines 46-90): no I/O, always succeeds with
a fixed simulated duration of 10 ms. -/
def PrintBackend : Backend where
  transfer host _content _filename :=
    .ok { hostname := host.hostname, success := true,
          message := "Dry-run transfer", duration_ms := 10 }
  restart host :=
    .ok { hostname := host.hostname, success := true,
          message := "Dry-run restart", duration_ms := 10 }

/-! ## Rollout orchestrator — `src/zcp_rollout/orchestrator.py` -/

/-- `RolloutOrchestrator._process_host` (orchestrator.py lines 55-77):
transfer, then restart only if transfer succeeded; an exception from
either phase propagates to the caller (the worker boundary). -/
def process_host (backend : Backend) (host : RolloutHost)
    (content filename : String) : Except String HostResult := do
  let transfer_result ← backend.transfer host content filename
  if !transfer_result.success then
    return transfer_result
  backend.restart host

/-- The `HostResult` that `execute` records for one host: the value of
`_process_host`, or — when the worker raised — the catch-all failed
result built at orchestrator.py lines 107-113. -/
def hostOutcome (backend : Backend) (content filename : String)
    (host : RolloutHost) : HostResult :=
  match process_host backend host content filename with
  | .ok r => r
  | .error e =>
      { hostname := host.hostname, success := false,
        message := "Error: " ++ e, duration_ms := 0 }

/-- The `results` dict built by the `as_completed` loop of `execute`
(orchestrator.py lines 94-113), determinised to submission order. -/
def collectResults (backend : Backend) (content filename : String)
    (hosts : List RolloutHost) (acc : List (String × HostResult)) :
    List (String × HostResult) :=
  hosts.foldl
    (fun res host =>
      dictInsert host.hostname (hostOutcome backend content filename host) res)
    acc

/-- `RolloutOrchestrator.execute` after backend resolution
(orchestrator.py lines 90-138): collect per-host results, then count
successes and failures exactly as the source does
(`fail = len(results) - success_count`). -/
def executeCore (backend : Backend) (job : RolloutJob) : RolloutReport :=
  let results := collectResults backend job.config_content job.config_filename job.hosts []
  let success_count := (results.filter (fun p => p.2.success)).length
  { success := success_count
    fail := results.length - success_count
    duration_s := 0
    results := results }

/-- `RolloutOrchestrator._get_backend` (orchestrator.py lines 30-53) for
an orchestrator constructed without an injected backend.  The SSH and
Ansible variants of backends.py are simulated in the source (they log and
always succeed); only `print` is modelled concretely, the two others are
represented by their always-succeeding simulated behaviour as well. -/
def builtinBackend (mode : String) : Option Backend :=
  if mode = "ssh" ∨ mode = "ansible" ∨ mode = "print" then
    some PrintBackend
  else
    none

/-- `RolloutOrchestrator.execute` (orchestrator.py lines 79-138) including
the two ways it can abort: `_get_backend` raising `ValueError` on an
unknown mode when no backend was injected, and
`ThreadPoolExecutor(max_workers=0)` raising `ValueError` when
`job.parallel` is not positive.  There is no other pre-dispatch check; in
particular an empty `job.hosts` list flows straight through the loop. -/
def execute (injected : Option Backend) (job : RolloutJob)
    (mode : String := "print") : Except String RolloutReport :=
  let backend? := match injected with
    | some b => some b
    | none => builtinBackend mode
  match backend? with
  | none => .error ("Unknown backend mode: " ++ mode)
  | some b =>
      if job.parallel = 0 then
        .error "max_workers must be greater than 0"
      else
        .ok (executeCore b job)

/-! ## Circuit breaker — `src/zcp_validate/nrdb_client.py` lines 28-72 -/

/-- `CircuitBreaker` state: `_threshold`, `_reset_seconds`, `_failures`,
`_open_since` (initialised to `0.0`). -/
structure CircuitBreaker where
  threshold : Nat
  reset_seconds : ℚ
  failures : Nat := 0
  open_since : ℚ := 0
  deriving Repr, DecidableEq

namespace CircuitBreaker

/-- `CircuitBreaker.__init__` (nrdb_client.py lines 33-44). -/
def init (threshold : Nat := 3) (reset_seconds : ℚ := 60) : CircuitBreaker :=
  { threshold := threshold, reset_seconds := reset_seconds }

/-- The `is_open` property (nrdb_client.py lines 46-62).  Reading it can
mutate the breaker (it clears `_failures` once the reset window has
elapsed), so it is modelled as a step returning the observed openness and
the successor state; `now` stands for the `time.time()` call inside. -/
def is_open (now : ℚ) (cb : CircuitBreaker) : Bool × CircuitBreaker :=
  if cb.threshold ≤ cb.failures then
    if cb.reset_seconds ≤ now - cb.open_since then
      (false, { cb with failures := 0 })
    else
      (true, cb)
  else
    (false, cb)

/-- `record_failure` (nrdb_client.py lines 64-68): increment `_failures`
and stamp `_open_since = time.time()` exactly when the incremented count
equals the threshold. -/
def record_failure (now : ℚ) (cb : CircuitBreaker) : CircuitBreaker :=
  let failures := cb.failures + 1
  { cb with
    failures := failures
    open_since := if failures = cb.threshold then now else cb.open_since }

/-- `record_success` (nrdb_client.py lines 70-72). -/
def record_success (cb : CircuitBreaker) : CircuitBreaker :=
  { cb with failures := 0 }

end CircuitBreaker

/-! ## NRDB client — `src/zcp_validate/nrdb_client.py` lines 75-192 -/

/-- The fields of `NRDBConfig` that `query` consults before dispatch. -/
structure NRDBConfig where
  api_key : String
  account_id : String
  deriving Repr, DecidableEq

/-- Outcome of one `NRDBClient.query` call, distinguishing whether the
underlying network operation was invoked at all. -/
inductive QueryOutcome (α : Type) where
  /-- `ValueError` raised before consulting the breaker (missing API key
  or account id). -/
  | configError (msg : String)
  /-- `RuntimeError` raised because the breaker is open: the request is
  never issued. -/
  | rejected
  /-- The request was issued and succeeded. -/
  | ok (v : α)
  /-- The request was issued and raised; the exception is re-raised. -/
  | failed (e : String)
  deriving Repr, DecidableEq

/-- `NRDBClient.query` (nrdb_client.py lines 111-191) as a step on the
breaker state.  `op` is the behaviour of the underlying network
round-trip (`requests.post` + response handling) at this call; it is
consumed only in the branch where the code actually issues the request.
On success the breaker records a success, on request failure it records
the failure and re-raises. -/
def clientQuery {α : Type} (config : NRDBConfig) (cb : CircuitBreaker)
    (now : ℚ) (op : Except String α) : QueryOutcome α × CircuitBreaker :=
  if config.api_key = "" then
    (.configError "NEW_RELIC_API_KEY environment variable or config is required", cb)
  else if config.account_id = "" then
    (.configError "NEW_RELIC_ACCOUNT_ID environment variable or config is required", cb)
  else
    match cb.is_open now with
    | (true, cb') => (.rejected, cb')
    | (false, cb') =>
        match op with
        | .ok v => (.ok v, cb'.record_success)
        | .error e => (.failed e, cb'.record_failure now)

/-! ## Validation data model — `src/zcp_validate/models.py` -/

/-- `ValidationJob` (models.py lines 11-33).  The pydantic validators
constrain `confidence` and `threshold` to `[0, 1]`; these constraints
appear as hypotheses where a proof needs them. -/
structure ValidationJob where
  hosts : List String
  expected_gib_day : ℚ
  confidence : ℚ
  timeframe_hours : Nat := 24
  threshold : ℚ := 1/10
  deriving Repr, DecidableEq

/-- `HostValidationResult` (models.py lines 36-45). -/
structure HostValidationResult where
  hostname : String
  expected_gib_day : ℚ
  actual_gib_day : ℚ
  within_threshold : Bool
  deviation_percent : ℚ
  message : String
  deriving Repr, DecidableEq

/-- `ValidationResult` (models.py lines 60-87). -/
structure ValidationResult where
  pass_rate : ℚ
  host_results : List (String × HostValidationResult)
  overall_pass : Bool
  summary : String
  query_duration_ms : ℚ
  deriving Repr, DecidableEq

/-- A natural number rendered in decimal, left-padded with zeros to
`len` digits. -/
def natDigitsPad (n len : Nat) : String :=
  let s := toString n
  String.mk (List.replicate (len - s.length) '0') ++ s

/-- The fixed-point float formatting of Python (`{:.2f}` etc.) with `prec`
decimal places, used by `_generate_message` (`{:.2f}`, `{:.1f}`) and the
summary (`{:.1%}`).  Ties are rounded to nearest; the tie-breaking rule
plays no role at the values evaluated here. -/
def fmtFixed (prec : Nat) (q : ℚ) : String :=
  let scaled : ℤ := round (q * (10 ^ prec : ℚ))
  let sign := if scaled < 0 then "-" else ""
  let n := scaled.natAbs
  let base := 10 ^ prec
  sign ++ toString (n / base) ++ "." ++ natDigitsPad (n % base) prec

/-- `Validator._generate_message` (validator.py lines 158-178). -/
def generate_message (actual expected deviation : ℚ)
    (within_threshold : Bool) : String :=
  let status := if within_threshold then "PASS" else "FAIL"
  let comparison := if actual > expected then "higher" else "lower"
  status ++ ": Actual ingest is " ++ fmtFixed 2 actual ++
    " GiB/day, which is " ++ fmtFixed 1 (deviation * 100) ++ "% " ++
    comparison ++ " than expected (" ++ fmtFixed 2 expected ++ " GiB/day)"

/-- Whether the character list `pat` starts the character list `cs`. -/
def matchesAt : List Char → List Char → Bool
  | [], _ => true
  | _ :: _, [] => false
  | p :: ps, c :: cs => p == c && matchesAt ps cs

/-- Whether the character list `pat` occurs contiguously in `cs`. -/
def occursInChars (pat : List Char) : List Char → Bool
  | [] => matchesAt pat []
  | c :: cs => matchesAt pat (c :: cs) || occursInChars pat cs

/-- Whether `pat` occurs as a contiguous substring of `s`.  Used to state
"the message contains/lacks the text ...". -/
def occursIn (pat s : String) : Bool :=
  occursInChars pat.data s.data

/-! ## Validator — `src/zcp_validate/validator.py` -/

/-- One row of the NRQL result list: a dict read with
`result.get("hostname")` and `result.get("giBIngested", 0.0)`, so either
key may be absent. -/
structure Row where
  hostname : Option String
  giBIngested : Option ℚ
  deriving Repr, DecidableEq

/-- `Validator._extract_host_ingest` (validator.py lines 134-156): scan
the rows for the first whose `hostname` field equals the requested host
and convert its ingest with the hard-coded `timeframe_hours = 24`
(`(gib_ingested / timeframe_hours) * 24`); `0.0` when no row matches. -/
def extract_host_ingest (rows : List Row) (hostname : String) : ℚ :=
  let timeframe_hours : ℚ := 24
  match rows.find? (fun r => r.hostname = some hostname) with
  | some row => (row.giBIngested.getD 0 / timeframe_hours) * 24
  | none => 0

/-- The `HostValidationResult` built for one host in the success branch
of `Validator.validate` (validator.py lines 50-66). -/
def hostValidation (job : ValidationJob) (rows : List Row)
    (host : String) : HostValidationResult :=
  let actual_gib_day := extract_host_ingest rows host
  let deviation :=
    if job.expected_gib_day > 0 then
      |actual_gib_day - job.expected_gib_day| / job.expected_gib_day
    else 0
  let within_threshold := deviation ≤ job.threshold
  { hostname := host
    expected_gib_day := job.expected_gib_day
    actual_gib_day := actual_gib_day
    within_threshold := within_threshold
    deviation_percent := deviation * 100
    message := generate_message actual_gib_day job.expected_gib_day deviation within_threshold }

/-- The `HostValidationResult` built for one host in the exception branch
of `Validator.validate` (validator.py lines 68-78). -/
def hostQueryError (job : ValidationJob) (e : String)
    (host : String) : HostValidationResult :=
  { hostname := host
    expected_gib_day := job.expected_gib_day
    actual_gib_day := 0
    within_threshold := false
    deviation_percent := 100
    message := "Error querying NRDB: " ++ e }

/-- `ValidationResult.__init__` (models.py lines 71-87): when
`host_results` is nonempty, `overall_pass` and `pass_rate` are recomputed
from the mapping and a summary line is generated; when empty, the
defaults stand (`overall_pass = False`, `summary = ""`). -/
def mkValidationResult (pass_rate : ℚ)
    (host_results : List (String × HostValidationResult))
    (query_duration_ms : ℚ) : ValidationResult :=
  if host_results.isEmpty then
    { pass_rate := pass_rate, host_results := host_results,
      overall_pass := false, summary := "", query_duration_ms := query_duration_ms }
  else
    let overall_pass := host_results.all (fun p => p.2.within_threshold)
    let pass_count := (host_results.filter (fun p => p.2.within_threshold)).length
    let total_count := host_results.length
    let rate := (pass_count : ℚ) / total_count
    { pass_rate := rate
      host_results := host_results
      overall_pass := overall_pass
      summary := "Validation " ++ (if overall_pass then "PASSED" else "FAILED") ++
        ": " ++ toString pass_count ++ "/" ++ toString total_count ++
        " hosts within threshold (" ++ fmtFixed 1 (rate * 100) ++ "%)"
      query_duration_ms := query_duration_ms }

/-- `Validator.validate` (validator.py lines 28-106).  `query_result` is
the outcome of `_query_actual_ingest` through the NRDB client: either the
result rows or the raised exception, which the `except` block converts
into error results for every host.  Query duration is wall-clock and
modelled as `0`; the schema-validation warning and the bus event are side
effects with no influence on the returned value. -/
def validate (job : ValidationJob)
    (query_result : Except String (List Row)) : ValidationResult :=
  let host_results :=
    match query_result with
    | .ok rows =>
        job.hosts.foldl
          (fun acc host => dictInsert host (hostValidation job rows host) acc) []
    | .error e =>
        job.hosts.foldl
          (fun acc host => dictInsert host (hostQueryError job e host) acc) []
  let pass_count := (host_results.filter (fun p => p.2.within_threshold)).length
  let pass_rate :=
    if host_results.isEmpty then 0 else (pass_count : ℚ) / host_results.length
  mkValidationResult pass_rate host_results 0

/-! ## Dictionary lemmas -/

theorem dictInsert_of_not_mem {α : Type} (k : String) (v : α) :
    ∀ (l : List (String × α)), k ∉ l.map Prod.fst →
      dictInsert k v l = l ++ [(k, v)] := by
  intro l
  induction l with
  | nil => intro; rfl
  | cons p rest ih =>
      intro h
      obtain ⟨k', v'⟩ := p
      simp only [List.map_cons, List.mem_cons, not_or] at h
      simp only [dictInsert, List.cons_append]
      rw [if_neg (fun he => h.1 he.symm), ih h.2]

theorem mem_dictInsert {α : Type} {p : String × α} {k : String} {v : α} :
    ∀ {l : List (String × α)}, p ∈ dictInsert k v l → p = (k, v) ∨ p ∈ l := by
  intro l
  induction l with
  | nil => simp [dictInsert]
  | cons q rest ih =>
      obtain ⟨k', v'⟩ := q
      simp only [dictInsert]
      by_cases hk : k' = k
      · simp only [if_pos hk, List.mem_cons]
        tauto
      · simp only [if_neg hk, List.mem_cons]
        rintro (h | h)
        · exact Or.inr (Or.inl h)
        · rcases ih h with h' | h'
          · exact Or.inl h'
          · exact Or.inr (Or.inr h')

theorem lookup_dictInsert_self {α : Type} (k : String) (v : α) :
    ∀ (l : List (String × α)), (dictInsert k v l).lookup k = some v := by
  intro l
  induction l with
  | nil => simp [dictInsert, List.lookup]
  | cons q rest ih =>
      obtain ⟨k', v'⟩ := q
      simp only [dictInsert]
      by_cases hk : k' = k
      · subst hk
        simp [List.lookup]
      · simp only [if_neg hk, List.lookup]
        have hbeq : (k == k') = false := by
          simp only [beq_eq_false_iff_ne, ne_eq]
          exact fun he => hk he.symm
        rw [hbeq]
        exact ih

theorem lookup_dictInsert_ne {α : Type} (k : String) (v : α) (k' : String)
    (hne : k' ≠ k) :
    ∀ (l : List (String × α)), (dictInsert k v l).lookup k' = l.lookup k' := by
  have hbne : (k' == k) = false := by
    simp only [beq_eq_false_iff_ne, ne_eq]
    exact hne
  intro l
  induction l with
  | nil =>
      simp only [dictInsert, List.lookup]
      rw [hbne]
  | cons q rest ih =>
      obtain ⟨k'', v''⟩ := q
      simp only [dictInsert]
      by_cases hk : k'' = k
      · subst hk
        simp only [List.lookup]
        rw [hbne]
      · simp only [if_neg hk, List.lookup]
        rw [ih]

/-- A fold of keyed inserts over fresh keys is a plain append. -/
theorem fold_dictInsert_eq_append {γ β : Type} (key : γ → String) (f : γ → β) :
    ∀ (items : List γ) (acc : List (String × β)),
      (acc.map Prod.fst ++ items.map key).Nodup →
      items.foldl (fun res it => dictInsert (key it) (f it) res) acc
        = acc ++ items.map (fun it => (key it, f it)) := by
  intro items
  induction items with
  | nil => intro acc _; simp
  | cons it rest ih =>
      intro acc h
      have hfresh : key it ∉ acc.map Prod.fst := by
        rcases List.nodup_append.mp h with ⟨_, _, hdisj⟩
        intro hmem
        exact hdisj hmem (by simp)
      have hstep : (acc ++ [(key it, f it)]).map Prod.fst ++ rest.map key
          = acc.map Prod.fst ++ (it :: rest).map key := by
        simp [List.append_assoc]
      simp only [List.foldl_cons]
      rw [dictInsert_of_not_mem _ _ _ hfresh, ih _ (by rw [hstep]; exact h)]
      simp [List.append_assoc]

/-- Lookup after folding keyed inserts of a value that depends only on the
key: the last write wins, and for a key-determined value the result is
independent of duplicates. -/
theorem lookup_fold_dictInsert {β : Type} (f : String → β) :
    ∀ (hosts : List String) (acc : List (String × β)) (h : String),
      (hosts.foldl (fun res h' => dictInsert h' (f h') res) acc).lookup h
        = if h ∈ hosts then some (f h) else acc.lookup h := by
  intro hosts
  induction hosts with
  | nil => intro acc h; simp
  | cons h' rest ih =>
      intro acc h
      simp only [List.foldl_cons]
      rw [ih]
      by_cases hmem : h ∈ rest
      · rw [if_pos hmem, if_pos (List.mem_cons_of_mem _ hmem)]
      · rw [if_neg hmem]
        by_cases heq : h = h'
        · subst heq
          rw [if_pos (List.mem_cons_self h rest)]
          exact lookup_dictInsert_self h (f h) acc
        · rw [if_neg (by simp [heq, hmem]), lookup_dictInsert_ne _ _ _ heq]

theorem mem_fold_dictInsert {β : Type} (f : String → β) :
    ∀ (hosts : List String) (acc : List (String × β)) (p : String × β),
      p ∈ hosts.foldl (fun res h' => dictInsert h' (f h') res) acc →
      p ∈ acc ∨ ∃ h ∈ hosts, p = (h, f h) := by
  intro hosts
  induction hosts with
  | nil => intro acc p hp; exact Or.inl hp
  | cons h' rest ih =>
      intro acc p hp
      simp only [List.foldl_cons] at hp
      rcases ih _ _ hp with hacc | ⟨h, hh, hph⟩
      · rcases mem_dictInsert hacc with hph | hacc'
        · exact Or.inr ⟨h', List.mem_cons_self h' rest, hph⟩
        · exact Or.inl hacc'
      · exact Or.inr ⟨h, List.mem_cons_of_mem _ hh, hph⟩

/-! ## Rollout characterization lemmas -/

/-- With pairwise-distinct hostnames the results dict of `execute` is the
per-host outcome of each host, in order. -/
theorem collectResults_eq (backend : Backend) (content filename : String)
    (hosts : List RolloutHost)
    (hnodup : (hosts.map RolloutHost.hostname).Nodup) :
    collectResults backend content filename hosts []
      = hosts.map (fun h => (h.hostname, hostOutcome backend content filename h)) := by
  have := fold_dictInsert_eq_append RolloutHost.hostname
    (hostOutcome backend content filename) hosts [] (by simpa using hnodup)
  simpa [collectResults] using this

theorem lookup_map_key {γ β : Type} (key : γ → String) (f : γ → β) :
    ∀ (items : List γ) (k : String),
      (items.map (fun it => (key it, f it))).lookup k
        = (items.find? (fun it => k == key it)).map f := by
  intro items
  induction items with
  | nil => intro k; rfl
  | cons it rest ih =>
      intro k
      simp only [List.map_cons, List.lookup, List.find?]
      cases hbeq : (k == key it) with
      | true => rfl
      | false => exact ih k

/-- Under distinct hostnames, searching the host list of the job for the
hostname of a member host finds that very host. -/
theorem find?_hostname_self (h0 : RolloutHost) :
    ∀ (hosts : List RolloutHost),
      (hosts.map RolloutHost.hostname).Nodup → h0 ∈ hosts →
      hosts.find? (fun h => h0.hostname == h.hostname) = some h0 := by
  intro hosts
  induction hosts with
  | nil => intro _ hmem; cases hmem
  | cons h rest ih =>
      intro hnodup hmem
      simp only [List.map_cons, List.nodup_cons] at hnodup
      rcases List.mem_cons.mp hmem with heq | hmem'
      · subst heq
        simp [List.find?]
      · have hne : h0.hostname ≠ h.hostname := by
          intro he
          exact hnodup.1 (he ▸ List.mem_map_of_mem RolloutHost.hostname hmem')
        simp only [List.find?]
        rw [show (h0.hostname == h.hostname) = false by
          simpa [beq_eq_false_iff_ne] using hne]
        exact ih hnodup.2 hmem'

/-! ## Circuit breaker trace lemmas -/

/-- `record_failure` applied along a list of timestamps. -/
def applyFailures (cb : CircuitBreaker) (ts : List ℚ) : CircuitBreaker :=
  ts.foldl (fun c t => c.record_failure t) cb

theorem applyFailures_threshold (cb : CircuitBreaker) :
    ∀ (ts : List ℚ), (applyFailures cb ts).threshold = cb.threshold := by
  intro ts
  induction ts generalizing cb with
  | nil => rfl
  | cons t rest ih => simpa [applyFailures, CircuitBreaker.record_failure] using ih _

theorem applyFailures_reset_seconds (cb : CircuitBreaker) :
    ∀ (ts : List ℚ), (applyFailures cb ts).reset_seconds = cb.reset_seconds := by
  intro ts
  induction ts generalizing cb with
  | nil => rfl
  | cons t rest ih => simpa [applyFailures, CircuitBreaker.record_failure] using ih _

theorem applyFailures_failures (cb : CircuitBreaker) :
    ∀ (ts : List ℚ), (applyFailures cb ts).failures = cb.failures + ts.length := by
  intro ts
  induction ts generalizing cb with
  | nil => simp [applyFailures]
  | cons t rest ih =>
      simp only [applyFailures, List.foldl_cons] at *
      rw [ih]
      simp [CircuitBreaker.record_failure]
      omega

/-- When the failure that reaches the threshold is the last of the trace,
`_open_since` is stamped with the timestamp of that failure. -/
theorem applyFailures_open_since (cb : CircuitBreaker) :
    ∀ (ts : List ℚ), cb.failures < cb.threshold →
      cb.failures + ts.length = cb.threshold → ts ≠ [] →
      (applyFailures cb ts).open_since = ts.getLastD 0 := by
  intro ts
  induction ts generalizing cb with
  | nil => intro _ _ hne; exact absurd rfl hne
  | cons t rest ih =>
      intro hlt hsum _
      cases rest with
      | nil =>
          have hhit : cb.failures + 1 = cb.threshold := by
            simpa using hsum
          simp [applyFailures, CircuitBreaker.record_failure, hhit]
      | cons t' rest' =>
          have hmiss : cb.failures + 1 ≠ cb.threshold := by
            simp only [List.length_cons] at hsum
            omega
          have hstep :
              (cb.record_failure t).failures = cb.failures + 1 := rfl
          have hopen :
              (cb.record_failure t).open_since = cb.open_since := by
            simp [CircuitBreaker.record_failure, hmiss]
          have hthr : (cb.record_failure t).threshold = cb.threshold := rfl
          have := ih (cb.record_failure t)
            (by
              rw [hstep, hthr]
              simp only [List.length_cons] at hsum
              omega)
            (by
              rw [hstep, hthr]
              simp only [List.length_cons] at hsum ⊢
              omega)
            (by simp)
          simpa [applyFailures, List.getLastD_cons] using this

/-! ## Claim theorems -/

/-- C1: For every rollout job with parallelism at least 1 and
pairwise-distinct hostnames, `execute(job, mode)` returns a report in
which every hostname of `job.hosts` appears exactly once as a key of
`results`, and `success + fail` equals the number of hosts in the job. -/
theorem rollout_report_complete (backend : Backend) (job : RolloutJob)
    (mode : String) (hpar : 1 ≤ job.parallel)
    (hnodup : (job.hosts.map RolloutHost.hostname).Nodup) :
    ∃ report : RolloutReport,
      execute (some backend) job mode = .ok report ∧
      (∀ h ∈ job.hosts, (report.results.map Prod.fst).count h.hostname = 1) ∧
      report.results.length = job.hosts.length ∧
      report.success + report.fail = job.hosts.length := by
  refine ⟨executeCore backend job, ?_, ?_, ?_, ?_⟩
  · simp only [execute]
    rw [if_neg (by omega)]
  · intro h hmem
    have hres : (executeCore backend job).results.map Prod.fst
        = job.hosts.map RolloutHost.hostname := by
      show (collectResults backend job.config_content job.config_filename
        job.hosts []).map Prod.fst = _
      rw [collectResults_eq backend _ _ _ hnodup, List.map_map]
      rfl
    rw [hres]
    exact List.count_eq_one_of_mem hnodup
      (List.mem_map_of_mem RolloutHost.hostname hmem)
  · show (collectResults backend job.config_content job.config_filename
      job.hosts []).length = job.hosts.length
    rw [collectResults_eq backend _ _ _ hnodup, List.length_map]
  · have hlen : (collectResults backend job.config_content job.config_filename
        job.hosts []).length = job.hosts.length := by
      rw [collectResults_eq backend _ _ _ hnodup, List.length_map]
    show ((collectResults backend job.config_content job.config_filename
        job.hosts []).filter (fun p => p.2.success)).length
      + ((collectResults backend job.config_content job.config_filename
        job.hosts []).length
        - ((collectResults backend job.config_content job.config_filename
          job.hosts []).filter (fun p => p.2.success)).length)
      = job.hosts.length
    have hle := List.length_filter_le (fun p : String × HostResult => p.2.success)
      (collectResults backend job.config_content job.config_filename job.hosts [])
    omega

/-- Concrete job used to instantiate the rollout claims. -/
def jobW : RolloutJob :=
  { hosts := [{ hostname := "h1" }, { hostname := "h2" }, { hostname := "h3" }]
    config_content := "license_key: abc"
    config_filename := "newrelic.yaml"
    checksum := "deadbeef" }

theorem rollout_report_complete_witness :
    (1 ≤ jobW.parallel ∧ (jobW.hosts.map RolloutHost.hostname).Nodup) ∧
    ∃ report : RolloutReport,
      execute (some PrintBackend) jobW "print" = .ok report ∧
      (∀ h ∈ jobW.hosts, (report.results.map Prod.fst).count h.hostname = 1) ∧
      report.results.length = jobW.hosts.length ∧
      report.success + report.fail = jobW.hosts.length :=
  ⟨⟨by decide, by decide⟩,
    rollout_report_complete PrintBackend jobW "print" (by decide) (by decide)⟩

/-- C2: If processing one host raises an arbitrary exception, `execute`
catches it at that host boundary and records a failed `HostResult` whose
message carries the exception text ("Error: " followed by the text); every
other host keeps exactly the result it would have had without the
exception, and `execute` itself returns a report rather than raising. -/
theorem rollout_exception_isolated (b b' : Backend) (job : RolloutJob)
    (h0 : RolloutHost) (e : String) (mode : String)
    (hpar : 1 ≤ job.parallel)
    (hnodup : (job.hosts.map RolloutHost.hostname).Nodup)
    (hmem : h0 ∈ job.hosts)
    (hagree : ∀ h : RolloutHost, h.hostname ≠ h0.hostname →
      (∀ c f, b'.transfer h c f = b.transfer h c f) ∧ b'.restart h = b.restart h)
    (hraise : process_host b' h0 job.config_content job.config_filename
      = .error e) :
    execute (some b') job mode = .ok (executeCore b' job) ∧
    (executeCore b' job).results.lookup h0.hostname
      = some { hostname := h0.hostname, success := false,
               message := "Error: " ++ e, duration_ms := 0 } ∧
    ∀ h ∈ job.hosts, h.hostname ≠ h0.hostname →
      (executeCore b' job).results.lookup h.hostname
        = (executeCore b job).results.lookup h.hostname := by
  have hres : ∀ bb : Backend, (executeCore bb job).results
      = job.hosts.map (fun h =>
          (h.hostname, hostOutcome bb job.config_content job.config_filename h)) :=
    fun bb => collectResults_eq bb _ _ _ hnodup
  refine ⟨?_, ?_, ?_⟩
  · simp only [execute]
    rw [if_neg (by omega)]
  · rw [hres b',
      lookup_map_key RolloutHost.hostname
        (hostOutcome b' job.config_content job.config_filename) job.hosts h0.hostname,
      find?_hostname_self h0 job.hosts hnodup hmem]
    simp [hostOutcome, hraise]
  · intro h hhmem hne
    rw [hres b', hres b,
      lookup_map_key RolloutHost.hostname
        (hostOutcome b' job.config_content job.config_filename) job.hosts h.hostname,
      lookup_map_key RolloutHost.hostname
        (hostOutcome b job.config_content job.config_filename) job.hosts h.hostname]
    cases hfind : job.hosts.find? (fun it => h.hostname == it.hostname) with
    | none => rfl
    | some h1 =>
        have hp := List.find?_some hfind
        have hne1 : h1.hostname ≠ h0.hostname := by
          have heq : h.hostname = h1.hostname := by simpa using hp
          exact heq ▸ hne
        have hag := hagree h1 hne1
        show some (hostOutcome b' job.config_content job.config_filename h1)
          = some (hostOutcome b job.config_content job.config_filename h1)
        congr 1
        simp only [hostOutcome, process_host, hag.1, hag.2]

/-- A backend that behaves like the dry-run backend except that the host
named `h2` raises from `transfer`. -/
def buggyBackend : Backend :=
  { transfer := fun h c f =>
      if h.hostname = "h2" then .error "boom"
      else PrintBackend.transfer h c f
    restart := PrintBackend.restart }

theorem rollout_exception_isolated_witness :
    (1 ≤ jobW.parallel ∧ (jobW.hosts.map RolloutHost.hostname).Nodup ∧
      ({ hostname := "h2" } : RolloutHost) ∈ jobW.hosts ∧
      process_host buggyBackend { hostname := "h2" }
        jobW.config_content jobW.config_filename = Except.error "boom") ∧
    (execute (some buggyBackend) jobW "print" = .ok (executeCore buggyBackend jobW) ∧
      (executeCore buggyBackend jobW).results.lookup "h2"
        = some { hostname := "h2", success := false,
                 message := "Error: " ++ "boom", duration_ms := 0 } ∧
      ∀ h ∈ jobW.hosts, h.hostname ≠ "h2" →
        (executeCore buggyBackend jobW).results.lookup h.hostname
          = (executeCore PrintBackend jobW).results.lookup h.hostname) :=
  ⟨⟨by decide, by decide, by decide, by rfl⟩,
    rollout_exception_isolated PrintBackend buggyBackend jobW
      { hostname := "h2" } "boom" "print" (by decide) (by decide) (by decide)
      (fun h hne =>
        ⟨fun c f => by simp [buggyBackend, hne], rfl⟩)
      (by rfl)⟩

/-- C3: once `failureThreshold` consecutive failures have been recorded
(the trace `failTimes`, whose last failure stamps `openedAtTimestamp`),
every query issued strictly inside the reset window is rejected without
invoking the underlying operation and leaves the breaker unchanged — so
all subsequent in-window queries are rejected as well; once the window
has elapsed, the next query is permitted through to the underlying
operation (its outcome reflects `op`). -/
theorem circuit_open_fail_fast {α : Type} (config : NRDBConfig)
    (hkey : config.api_key ≠ "") (hacct : config.account_id ≠ "")
    (threshold : Nat) (reset_seconds : ℚ) (hth : 1 ≤ threshold)
    (failTimes : List ℚ) (hlen : failTimes.length = threshold)
    (op : Except String α) (now : ℚ) :
    (now - failTimes.getLastD 0 < reset_seconds →
      clientQuery config
          (applyFailures (CircuitBreaker.init threshold reset_seconds) failTimes)
          now op
        = (.rejected,
            applyFailures (CircuitBreaker.init threshold reset_seconds) failTimes)) ∧
    (reset_seconds ≤ now - failTimes.getLastD 0 →
      (clientQuery config
          (applyFailures (CircuitBreaker.init threshold reset_seconds) failTimes)
          now op).1
        = match op with
          | .ok v => QueryOutcome.ok v
          | .error e => QueryOutcome.failed e) := by
  have hthr : (applyFailures (CircuitBreaker.init threshold reset_seconds)
      failTimes).threshold = threshold :=
    applyFailures_threshold _ _
  have hrs : (applyFailures (CircuitBreaker.init threshold reset_seconds)
      failTimes).reset_seconds = reset_seconds :=
    applyFailures_reset_seconds _ _
  have hfail : (applyFailures (CircuitBreaker.init threshold reset_seconds)
      failTimes).failures = threshold := by
    rw [applyFailures_failures]
    simpa [CircuitBreaker.init] using hlen
  have hsince : (applyFailures (CircuitBreaker.init threshold reset_seconds)
      failTimes).open_since = failTimes.getLastD 0 := by
    apply applyFailures_open_since
    · simpa [CircuitBreaker.init] using hth
    · simpa [CircuitBreaker.init] using hlen
    · intro hnil
      rw [hnil] at hlen
      simp at hlen
      omega
  constructor
  · intro hwin
    have hopen : (applyFailures (CircuitBreaker.init threshold reset_seconds)
        failTimes).is_open now
        = (true, applyFailures (CircuitBreaker.init threshold reset_seconds) failTimes) := by
      unfold CircuitBreaker.is_open
      rw [if_pos (by rw [hthr, hfail]), if_neg (by rw [hrs, hsince]; exact not_le.mpr hwin)]
    simp only [clientQuery]
    rw [if_neg hkey, if_neg hacct, hopen]
  · intro helapsed
    have hopen : (applyFailures (CircuitBreaker.init threshold reset_seconds)
        failTimes).is_open now
        = (false, { applyFailures (CircuitBreaker.init threshold reset_seconds)
              failTimes with failures := 0 }) := by
      unfold CircuitBreaker.is_open
      rw [if_pos (by rw [hthr, hfail]), if_pos (by rw [hrs, hsince]; exact helapsed)]
    simp only [clientQuery]
    rw [if_neg hkey, if_neg hacct, hopen]
    cases op <;> rfl

theorem circuit_open_fail_fast_witness :
    (("key" : String) ≠ "" ∧ (1 : Nat) ≤ 3 ∧ ([0, 1, 2] : List ℚ).length = 3) ∧
    clientQuery (⟨"key", "acct"⟩ : NRDBConfig)
        (applyFailures (CircuitBreaker.init 3 60) [0, 1, 2]) 50
        (Except.ok (7 : Nat))
      = (.rejected, applyFailures (CircuitBreaker.init 3 60) [0, 1, 2]) ∧
    (clientQuery (⟨"key", "acct"⟩ : NRDBConfig)
        (applyFailures (CircuitBreaker.init 3 60) [0, 1, 2]) 100
        (Except.ok (7 : Nat))).1 = QueryOutcome.ok 7 :=
  ⟨⟨by decide, by decide, by decide⟩,
    (circuit_open_fail_fast (⟨"key", "acct"⟩ : NRDBConfig) (by decide) (by decide)
      3 60 (by decide) [0, 1, 2] (by decide) (Except.ok 7) 50).1
      (by norm_num [List.getLastD]),
    (circuit_open_fail_fast (⟨"key", "acct"⟩ : NRDBConfig) (by decide) (by decide)
      3 60 (by decide) [0, 1, 2] (by decide) (Except.ok 7) 100).2
      (by norm_num [List.getLastD])⟩

/-- C4 counterexample: the claim says that once the reset window has
elapsed and the next call through fails, the call after that single
failure is again rejected.  Concretely: threshold 3, window 60 s, breaker
opened at t=2 by three failures, window elapsed at t=100, the permitted
call at t=100 fails — yet the very next call at t=101 is let straight
through to the underlying operation (outcome `ok 42`), because the reset
cleared the counter to 0 and one failure only brings it to 1 < 3. -/
theorem circuit_single_failure_no_reopen_cex :
    (clientQuery (⟨"key", "acct"⟩ : NRDBConfig)
        ((clientQuery (⟨"key", "acct"⟩ : NRDBConfig)
            (applyFailures (CircuitBreaker.init 3 60) [0, 1, 2]) 100
            (Except.error "boom" : Except String Nat)).2)
        101 (Except.ok (42 : Nat))).1 = QueryOutcome.ok 42 ∧
    (clientQuery (⟨"key", "acct"⟩ : NRDBConfig)
        (applyFailures (CircuitBreaker.init 3 60) [0, 1, 2]) 100
        (Except.error "boom" : Except String Nat)).1 = QueryOutcome.failed "boom" := by
  have hab : applyFailures (CircuitBreaker.init 3 60) [0, 1, 2]
      = { threshold := 3, reset_seconds := 60, failures := 3, open_since := 2 } := rfl
  have hopen1 : ({ threshold := 3, reset_seconds := 60, failures := 3, open_since := 2 }
      : CircuitBreaker).is_open 100
      = (false, { threshold := 3, reset_seconds := 60, failures := 0, open_since := 2 }) := by
    unfold CircuitBreaker.is_open
    rw [if_pos (by decide), if_pos (by norm_num)]
  have hq1 : clientQuery (⟨"key", "acct"⟩ : NRDBConfig)
      ({ threshold := 3, reset_seconds := 60, failures := 3, open_since := 2 }
        : CircuitBreaker) 100 (Except.error "boom" : Except String Nat)
      = (QueryOutcome.failed "boom",
          { threshold := 3, reset_seconds := 60, failures := 1, open_since := 2 }) := by
    simp only [clientQuery]
    rw [if_neg (by decide), if_neg (by decide), hopen1]
    rfl
  rw [hab, hq1]
  exact ⟨rfl, rfl⟩

/-- C4 (amended): for every circuit breaker that has opened and whose
reset window has elapsed, reading `is_open` treats the breaker as closed
(failure counter reset to 0) and the next call is passed through to the
underlying operation.  A single subsequent failed call sets the counter
to 1, so the call after it is rejected exactly when
`failureThreshold = 1`; for thresholds of 2 or more the breaker reopens
only after `failureThreshold` consecutive failures accumulate again. -/
theorem circuit_reset_behavior {α : Type} (config : NRDBConfig)
    (hkey : config.api_key ≠ "") (hacct : config.account_id ≠ "")
    (cb : CircuitBreaker) (hth : 1 ≤ cb.threshold)
    (hopen : cb.threshold ≤ cb.failures) (now1 : ℚ)
    (helapsed : cb.reset_seconds ≤ now1 - cb.open_since) :
    cb.is_open now1 = (false, { cb with failures := 0 }) ∧
    (∀ op : Except String α,
      (clientQuery config cb now1 op).1
        = match op with
          | .ok v => QueryOutcome.ok v
          | .error e => QueryOutcome.failed e) ∧
    (∀ (e : String) (op2 : Except String α) (now2 : ℚ),
      now2 - now1 < cb.reset_seconds →
      (clientQuery config
          ((clientQuery config cb now1 (Except.error e : Except String α)).2)
          now2 op2).1
        = if cb.threshold = 1 then QueryOutcome.rejected
          else match op2 with
            | .ok v => QueryOutcome.ok v
            | .error e' => QueryOutcome.failed e') := by
  have hreset : cb.is_open now1 = (false, { cb with failures := 0 }) := by
    unfold CircuitBreaker.is_open
    rw [if_pos hopen, if_pos helapsed]
  refine ⟨hreset, ?_, ?_⟩
  · intro op
    simp only [clientQuery]
    rw [if_neg hkey, if_neg hacct, hreset]
    cases op <;> rfl
  · intro e op2 now2 hwin
    have hcb2 : (clientQuery config cb now1 (Except.error e : Except String α)).2
        = ({ cb with failures := 0         } : CircuitBreaker).record_failure now1 := by
      simp only [clientQuery]
      rw [if_neg hkey, if_neg hacct, hreset]
    rw [hcb2]
    by_cases h1 : cb.threshold = 1
    · have hcb3 : ({ cb with failures := 0 } : CircuitBreaker).record_failure now1
          = { cb with failures := 1, open_since := now1 } := by
        simp [CircuitBreaker.record_failure, h1]
      rw [hcb3, if_pos h1]
      have hopen3 : ({ cb with failures := 1, open_since := now1 }
          : CircuitBreaker).is_open now2
          = (true, { cb with failures := 1, open_since := now1 }) := by
        unfold CircuitBreaker.is_open
        rw [if_pos (by simp [h1]),
          if_neg (by simpa using not_le.mpr hwin)]
      simp only [clientQuery]
      rw [if_neg hkey, if_neg hacct, hopen3]
    · have hcb3 : ({ cb with failures := 0 } : CircuitBreaker).record_failure now1
          = { cb with failures := 1 } := by
        simp only [CircuitBreaker.record_failure]
        rw [if_neg (by intro h; exact h1 (by omega))]
      rw [hcb3, if_neg h1]
      have hopen3 : ({ cb with failures := 1 } : CircuitBreaker).is_open now2
          = (false, { cb with failures := 1 }) := by
        unfold CircuitBreaker.is_open
        rw [if_neg (by simp; omega)]
      simp only [clientQuery]
      rw [if_neg hkey, if_neg hacct, hopen3]
      cases op2 <;> rfl

theorem circuit_reset_behavior_witness :
    (("key" : String) ≠ "" ∧ (1 : Nat) ≤ 3 ∧ (3 : Nat) ≤ 3 ∧
      (60 : ℚ) ≤ 100 - 2 ∧ (101 : ℚ) - 100 < 60) ∧
    (({ threshold := 3, reset_seconds := 60, failures := 3, open_since := 2 }
        : CircuitBreaker).is_open 100
      = (false, { threshold := 3, reset_seconds := 60, failures := 0, open_since := 2 })) ∧
    (clientQuery (⟨"key", "acct"⟩ : NRDBConfig)
        ((clientQuery (⟨"key", "acct"⟩ : NRDBConfig)
            ({ threshold := 3, reset_seconds := 60, failures := 3, open_since := 2 }
              : CircuitBreaker) 100
            (Except.error "boom" : Except String Nat)).2)
        101 (Except.ok (5 : Nat))).1
      = if (3 : Nat) = 1 then QueryOutcome.rejected else QueryOutcome.ok 5 :=
  ⟨⟨by decide, by decide, by decide, by norm_num, by norm_num⟩,
    (circuit_reset_behavior (α := Nat) (⟨"key", "acct"⟩ : NRDBConfig) (by decide)
        (by decide)
        { threshold := 3, reset_seconds := 60, failures := 3, open_since := 2 }
        (by decide) (by decide) 100 (by norm_num)).1,
    (circuit_reset_behavior (α := Nat) (⟨"key", "acct"⟩ : NRDBConfig) (by decide)
        (by decide)
        { threshold := 3, reset_seconds := 60, failures := 3, open_since := 2 }
        (by decide) (by decide) 100 (by norm_num)).2.2
      "boom" (Except.ok 5) 101 (by norm_num)⟩

theorem mem_of_lookup_eq_some {α : Type} {k : String} {v : α} :
    ∀ {l : List (String × α)}, l.lookup k = some v → (k, v) ∈ l := by
  intro l
  induction l with
  | nil => intro h; cases h
  | cons q rest ih =>
      obtain ⟨k', v'⟩ := q
      simp only [List.lookup]
      cases hbeq : (k == k') with
      | true =>
          intro h
          have hk : k = k' := by simpa using hbeq
          have hv : v' = v := by simpa using h
          subst hk
          subst hv
          exact List.mem_cons_self _ _
      | false =>
          intro h
          exact List.mem_cons_of_mem _ (ih h)

/-- Evaluation helper for the per-host success-branch result, splitting
out the three computations (extracted actual, deviation, threshold
check). -/
theorem hostValidation_eval (job : ValidationJob) (rows : List Row)
    (h : String) (actual dev : ℚ) (hw : Bool)
    (hact : extract_host_ingest rows h = actual)
    (hdev : (if job.expected_gib_day > 0 then
        |actual - job.expected_gib_day| / job.expected_gib_day else 0) = dev)
    (hwit : decide (dev ≤ job.threshold) = hw) :
    hostValidation job rows h
      = { hostname := h, expected_gib_day := job.expected_gib_day,
          actual_gib_day := actual, within_threshold := hw,
          deviation_percent := dev * 100,
          message := generate_message actual job.expected_gib_day dev hw } := by
  subst hact
  subst hdev
  subst hwit
  rfl

theorem mkValidationResult_host_results (pr : ℚ)
    (L : List (String × HostValidationResult)) (q : ℚ) :
    (mkValidationResult pr L q).host_results = L := by
  simp only [mkValidationResult]
  split <;> rfl

theorem mkValidationResult_overall_pass (pr : ℚ)
    (L : List (String × HostValidationResult)) (q : ℚ) :
    (mkValidationResult pr L q).overall_pass
      = (!L.isEmpty && L.all (fun p => p.2.within_threshold)) := by
  simp only [mkValidationResult]
  split
  · rename_i hemp
    rw [hemp]
    rfl
  · rename_i hemp
    simp only [Bool.not_eq_true] at hemp
    rw [hemp]
    rfl

theorem validate_overall_pass (job : ValidationJob)
    (query_result : Except String (List Row)) :
    (validate job query_result).overall_pass
      = (!(validate job query_result).host_results.isEmpty
          && (validate job query_result).host_results.all
              (fun p => p.2.within_threshold)) := by
  cases query_result <;>
    simp only [validate, mkValidationResult_host_results,
      mkValidationResult_overall_pass]

/-- The results dict of `validate` on a successful query is exactly the
per-host fold of success-branch results. -/
theorem validate_host_results_ok (job : ValidationJob) (rows : List Row) :
    (validate job (.ok rows)).host_results
      = job.hosts.foldl
          (fun acc host => dictInsert host (hostValidation job rows host) acc) [] := by
  simp only [validate, mkValidationResult_host_results]

/-- The results dict of `validate` on a failed query is exactly the
per-host fold of error results. -/
theorem validate_host_results_error (job : ValidationJob) (e : String) :
    (validate job (.error e)).host_results
      = job.hosts.foldl
          (fun acc host => dictInsert host (hostQueryError job e host) acc) [] := by
  simp only [validate, mkValidationResult_host_results]

/-- C5: when the metrics query raises, every host of the job is marked
failed (`within_threshold = false`), with actual ingest `0` and a message
that is the error text appended to "Error querying NRDB: "; no host gets
any other result, and `overall_pass` is false. -/
theorem validate_query_error_marks_all (job : ValidationJob) (e : String) :
    (∀ p ∈ (validate job (.error e)).host_results,
      p.2.within_threshold = false ∧ p.2.actual_gib_day = 0 ∧
      p.2.message = "Error querying NRDB: " ++ e) ∧
    (∀ h ∈ job.hosts,
      (validate job (.error e)).host_results.lookup h
        = some (hostQueryError job e h)) ∧
    (validate job (.error e)).overall_pass = false := by
  have hhr : (validate job (.error e)).host_results
      = job.hosts.foldl
          (fun acc host => dictInsert host (hostQueryError job e host) acc) [] :=
    validate_host_results_error job e
  refine ⟨?_, ?_, ?_⟩
  · intro p hp
    rw [hhr] at hp
    rcases mem_fold_dictInsert (hostQueryError job e) job.hosts [] p hp with h | ⟨h, _, hph⟩
    · cases h
    · subst hph
      exact ⟨rfl, rfl, rfl⟩
  · intro h hmem
    rw [hhr, lookup_fold_dictInsert (hostQueryError job e) job.hosts [] h,
      if_pos hmem]
  · rw [validate_overall_pass, hhr]
    cases hhosts : job.hosts with
    | nil => rfl
    | cons h rest =>
        have hlook : (job.hosts.foldl
            (fun acc host => dictInsert host (hostQueryError job e host) acc)
            []).lookup h = some (hostQueryError job e h) := by
          rw [lookup_fold_dictInsert (hostQueryError job e) job.hosts [] h,
            if_pos (by rw [hhosts]; exact List.mem_cons_self h rest)]
        have hmem : (h, hostQueryError job e h) ∈ job.hosts.foldl
            (fun acc host => dictInsert host (hostQueryError job e host) acc) [] :=
          mem_of_lookup_eq_some hlook
        rw [hhosts] at hmem
        cases hL : (h :: rest).foldl
            (fun acc host => dictInsert host (hostQueryError job e host) acc) [] with
        | nil =>
            rw [hL] at hmem
            cases hmem
        | cons a l =>
            simp only [List.isEmpty_cons, Bool.not_false, Bool.true_and]
            cases hall : (a :: l).all (fun p => p.2.within_threshold) with
            | false => rfl
            | true =>
                exfalso
                rw [hL] at hmem
                have := List.all_eq_true.mp hall ⟨h, hostQueryError job e h⟩ hmem
                simp [hostQueryError] at this

/-- Concrete validation job used to instantiate the error-path claim. -/
def jobC5 : ValidationJob :=
  { hosts := ["h1", "h2"], expected_gib_day := 10, confidence := 4/5 }

theorem validate_query_error_marks_all_witness :
    ("h2" ∈ jobC5.hosts) ∧
    (validate jobC5 (.error "NRDB connection error")).overall_pass = false ∧
    (validate jobC5 (.error "NRDB connection error")).host_results.lookup "h2"
      = some (hostQueryError jobC5 "NRDB connection error" "h2") :=
  ⟨by decide,
    (validate_query_error_marks_all jobC5 "NRDB connection error").2.2,
    (validate_query_error_marks_all jobC5 "NRDB connection error").2.1 "h2"
      (by decide)⟩

/-- Query rows for the missing-host scenario of the repository unit test
`test_partial_host_data_availability`: data for host1 and host3 only. -/
def rowsC6 : List Row :=
  [{ hostname := some "host1.example.com", giBIngested := some 12 },
   { hostname := some "host3.example.com", giBIngested := some 8 }]

/-- The validation job of that test: three hosts, expected 10 GiB/day,
threshold 0.2. -/
def jobC6 : ValidationJob :=
  { hosts := ["host1.example.com", "host2.example.com", "host3.example.com"],
    expected_gib_day := 10, confidence := 4/5, timeframe_hours := 24,
    threshold := 1/5 }

/-- C6 (code bug): the spec and the repository unit test
`test_partial_host_data_availability` require the result of a host absent
from the query rows to carry a "no data found" message, but the code
routes the missing host through `_generate_message`, which produces
"FAIL: Actual ingest is 0.00 GiB/day, ..." — a message that contains no
"no data" text at all (the only parts the code does deliver are
`actualGiBPerDay = 0` and `withinThreshold = false`). -/
theorem missing_host_no_data_message_bug :
    (validate jobC6 (.ok rowsC6)).host_results.lookup "host2.example.com"
      = some { hostname := "host2.example.com", expected_gib_day := 10,
               actual_gib_day := 0, within_threshold := false,
               deviation_percent := 100,
               message := "FAIL: Actual ingest is 0.00 GiB/day, which is 100.0% lower than expected (10.00 GiB/day)" } ∧
    occursIn "No data found"
      "FAIL: Actual ingest is 0.00 GiB/day, which is 100.0% lower than expected (10.00 GiB/day)" = false ∧
    occursIn "no data"
      "FAIL: Actual ingest is 0.00 GiB/day, which is 100.0% lower than expected (10.00 GiB/day)" = false := by
  have hf0 : fmtFixed 2 (0 : ℚ) = "0.00" := by
    unfold fmtFixed
    rw [show round ((0 : ℚ) * 10 ^ 2) = 0 by norm_num]
    rfl
  have hf10 : fmtFixed 2 (10 : ℚ) = "10.00" := by
    unfold fmtFixed
    rw [show round ((10 : ℚ) * 10 ^ 2) = 1000 by norm_num]
    rfl
  have hf100 : fmtFixed 1 ((1 : ℚ) * 100) = "100.0" := by
    unfold fmtFixed
    rw [show round ((1 : ℚ) * 100 * 10 ^ 1) = 1000 by norm_num]
    rfl
  have hmsg : generate_message 0 jobC6.expected_gib_day 1 false
      = "FAIL: Actual ingest is 0.00 GiB/day, which is 100.0% lower than expected (10.00 GiB/day)" := by
    show generate_message 0 10 1 false = _
    unfold generate_message
    rw [if_neg (show ¬((0 : ℚ) > 10) by norm_num), hf0, hf10, hf100]
    rfl
  have hdev : (if jobC6.expected_gib_day > 0 then
      |(0 : ℚ) - jobC6.expected_gib_day| / jobC6.expected_gib_day else 0) = 1 := by
    show (if (10 : ℚ) > 0 then |(0 : ℚ) - 10| / 10 else 0) = 1
    rw [if_pos (by norm_num)]
    norm_num
  have hwit : decide ((1 : ℚ) ≤ jobC6.threshold) = false := by
    show decide ((1 : ℚ) ≤ 1/5) = false
    exact decide_eq_false (by norm_num)
  have hhv := hostValidation_eval jobC6 rowsC6 "host2.example.com" 0 1 false
    rfl hdev hwit
  refine ⟨?_, ?_, ?_⟩
  · rw [validate_host_results_ok,
      lookup_fold_dictInsert (hostValidation jobC6 rowsC6) jobC6.hosts []
        "host2.example.com",
      if_pos (by decide), hhv, hmsg, one_mul]
    rfl
  · rfl
  · rfl

/-- Validation job with a zero predicted ingest. -/
def jobC7 : ValidationJob :=
  { hosts := ["h1"], expected_gib_day := 0, confidence := 1 }

/-- A query row giving host `h1` a non-zero actual ingest. -/
def rowsC7 : List Row :=
  [{ hostname := some "h1", giBIngested := some 5 }]

/-- C7 counterexample: with expected 0 and actual 5 (non-zero), the claim
requires `deviationPercent = 100`, but the code computes
`deviation = 0` whenever `expected_gib_day > 0` fails, so the recorded
deviation percent is 0, not 100. -/
theorem deviation_zero_expected_cex :
    (validate jobC7 (.ok rowsC7)).host_results.lookup "h1"
      = some (hostValidation jobC7 rowsC7 "h1") ∧
    (hostValidation jobC7 rowsC7 "h1").actual_gib_day = 5 ∧
    (hostValidation jobC7 rowsC7 "h1").deviation_percent = 0 ∧
    (hostValidation jobC7 rowsC7 "h1").deviation_percent ≠ 100 := by
  have hact : extract_host_ingest rowsC7 "h1" = 5 := by
    show ((5 : ℚ) / 24) * 24 = 5
    norm_num
  have hdev : (if jobC7.expected_gib_day > 0 then
      |(5 : ℚ) - jobC7.expected_gib_day| / jobC7.expected_gib_day else 0) = 0 := by
    show (if (0 : ℚ) > 0 then |(5 : ℚ) - 0| / 0 else 0) = 0
    rw [if_neg (by norm_num)]
  have hwit : decide ((0 : ℚ) ≤ jobC7.threshold) = true := by
    show decide ((0 : ℚ) ≤ 1/10) = true
    exact decide_eq_true (by norm_num)
  have hhv := hostValidation_eval jobC7 rowsC7 "h1" 5 0 true hact hdev hwit
  refine ⟨?_, ?_, ?_, ?_⟩
  · rw [validate_host_results_ok,
      lookup_fold_dictInsert (hostValidation jobC7 rowsC7) jobC7.hosts [] "h1",
      if_pos (by decide)]
  · rw [hhv]
  · rw [hhv]
    show (0 : ℚ) * 100 = 0
    exact zero_mul 100
  · rw [hhv]
    show (0 : ℚ) * 100 ≠ 100
    norm_num

/-- C7 (amended): for every per-host result produced from a successful
query, `deviationPercent` equals `|actual - expected| / expected * 100`
when `expected > 0`, and equals `0` whenever `expected ≤ 0` — including
the case expected 0 with non-zero actual, where the spec instead
promised 100. -/
theorem deviation_percent_formula (job : ValidationJob) (rows : List Row)
    (h : String) (hmem : h ∈ job.hosts) :
    (validate job (.ok rows)).host_results.lookup h
      = some (hostValidation job rows h) ∧
    (hostValidation job rows h).deviation_percent
      = (if job.expected_gib_day > 0
          then |(hostValidation job rows h).actual_gib_day - job.expected_gib_day|
              / job.expected_gib_day * 100
          else 0) := by
  constructor
  · rw [validate_host_results_ok,
      lookup_fold_dictInsert (hostValidation job rows) job.hosts [] h,
      if_pos hmem]
  · show (if job.expected_gib_day > 0
        then |extract_host_ingest rows h - job.expected_gib_day|
            / job.expected_gib_day
        else 0) * 100
      = (if job.expected_gib_day > 0
          then |extract_host_ingest rows h - job.expected_gib_day|
              / job.expected_gib_day * 100
          else 0)
    split
    · rfl
    · exact zero_mul 100

/-- Validation job with a positive predicted ingest, for the amended
deviation formula. -/
def jobC7w : ValidationJob :=
  { hosts := ["h1"], expected_gib_day := 10, confidence := 1 }

theorem deviation_percent_formula_witness :
    ("h1" ∈ jobC7w.hosts) ∧
    ((validate jobC7w (.ok rowsC7)).host_results.lookup "h1"
      = some (hostValidation jobC7w rowsC7 "h1") ∧
    (hostValidation jobC7w rowsC7 "h1").deviation_percent
      = (if jobC7w.expected_gib_day > 0
          then |(hostValidation jobC7w rowsC7 "h1").actual_gib_day
              - jobC7w.expected_gib_day| / jobC7w.expected_gib_day * 100
          else 0)) :=
  ⟨by decide, deviation_percent_formula jobC7w rowsC7 "h1" (by decide)⟩

/-- A rollout job whose host list is empty. -/
def emptyRJob : RolloutJob :=
  { hosts := [], config_content := "cfg", config_filename := "cfg.yaml",
    checksum := "abc" }

/-- A validation job whose host list is empty. -/
def emptyVJob : ValidationJob :=
  { hosts := [], expected_gib_day := 10, confidence := 1 }

/-- C8 counterexample: the claim requires a rollout or validation call
with an empty host list to abort as a configuration error before
dispatch.  The code has no such check: `execute` (both with an injected
backend and through the `print` mode) completes normally with an empty
report, and `validate` completes normally with an empty result — on a
successful query and even on a failed one. -/
theorem empty_hosts_completes_cex :
    execute (some PrintBackend) emptyRJob "print"
      = .ok { success := 0, fail := 0, duration_s := 0, results := [] } ∧
    execute none emptyRJob "print"
      = .ok { success := 0, fail := 0, duration_s := 0, results := [] } ∧
    validate emptyVJob (.ok [])
      = { pass_rate := 0, host_results := [], overall_pass := false,
          summary := "", query_duration_ms := 0 } ∧
    validate emptyVJob (.error "no creds")
      = { pass_rate := 0, host_results := [], overall_pass := false,
          summary := "", query_duration_ms := 0 } :=
  ⟨rfl, rfl, rfl, rfl⟩

/-- C8 (amended): neither `execute` nor `validate` checks for an empty
host list; with no hosts both complete normally — the rollout returns an
empty report with `success = fail = 0` and the validation returns an
empty result with `overall_pass = false` — instead of aborting with a
configuration error (the only pre-dispatch aborts in `execute` are an
unknown backend mode and a non-positive worker count). -/
theorem empty_hosts_no_abort (b : Backend) (job : RolloutJob) (mode : String)
    (hjob : job.hosts = []) (hpar : 1 ≤ job.parallel)
    (vjob : ValidationJob) (hv : vjob.hosts = [])
    (q : Except String (List Row)) :
    execute (some b) job mode
      = .ok { success := 0, fail := 0, duration_s := 0, results := [] } ∧
    validate vjob q
      = { pass_rate := 0, host_results := [], overall_pass := false,
          summary := "", query_duration_ms := 0 } := by
  constructor
  · simp only [execute]
    rw [if_neg (by omega)]
    simp [executeCore, collectResults, hjob]
  · cases q <;> simp [validate, hv, mkValidationResult]

theorem empty_hosts_no_abort_witness :
    (emptyRJob.hosts = [] ∧ 1 ≤ emptyRJob.parallel ∧ emptyVJob.hosts = []) ∧
    (execute (some PrintBackend) emptyRJob "ssh"
      = .ok { success := 0, fail := 0, duration_s := 0, results := [] } ∧
    validate emptyVJob (.ok [{ hostname := some "stray", giBIngested := some 1 }])
      = { pass_rate := 0, host_results := [], overall_pass := false,
          summary := "", query_duration_ms := 0 }) :=
  ⟨⟨rfl, by decide, rfl⟩,
    empty_hosts_no_abort PrintBackend emptyRJob "ssh" rfl (by decide)
      emptyVJob rfl (.ok [{ hostname := some "stray", giBIngested := some 1 }])⟩

/-- A backend whose per-host operations report a duration of 500000 ms
(500 s) and succeed. -/
def slowBackend : Backend :=
  { transfer := fun h _ _ =>
      .ok { hostname := h.hostname, success := true,
            message := "transferred", duration_ms := 500000 }
    restart := fun h =>
      .ok { hostname := h.hostname, success := true,
            message := "Agent restarted", duration_ms := 500000 } }

/-- A one-host job with a 1-second per-host timeout. -/
def slowJob : RolloutJob :=
  { hosts := [{ hostname := "h1" }], config_content := "cfg",
    config_filename := "f.yaml", checksum := "c", timeout_s := 1 }

/-- C9 counterexample: the job declares `timeout_s = 1`, the backend
takes 500000 ms per operation, yet the host is recorded as a success with
the backend message — not marked failed with a timeout message.  No code
path of the orchestrator or the backends reads `job.timeout_s`. -/
theorem timeout_ignored_cex :
    slowJob.timeout_s = 1 ∧
    (executeCore slowBackend slowJob).results.lookup "h1"
      = some { hostname := "h1", success := true,
               message := "Agent restarted", duration_ms := 500000 } ∧
    occursIn "timeout" "Agent restarted" = false :=
  ⟨rfl, rfl, rfl⟩

/-- C9 (amended): the per-host timeout field `timeout_s` of the job is
never consulted: the report of `execute` is unchanged under any
modification of `timeout_s`, and a host whose backend operation reports
any duration keeps whatever result the backend returned. -/
theorem timeout_field_unused (b : Backend) (job : RolloutJob) (t : Nat)
    (injected : Option Backend) (mode : String) :
    executeCore b { job with timeout_s := t } = executeCore b job ∧
    execute injected { job with timeout_s := t } mode
      = execute injected job mode :=
  ⟨rfl, rfl⟩

/-- C10: for a successful metrics query and a requested host whose first
matching row carries ingest value `g`, the assigned actual is exactly
`g` — the conversion `(g / 24) * 24` uses a hard-coded 24-hour window and
cancels; and the whole validation result is independent of the
`timeframe_hours` of the job (a non-24-hour query window is not
normalized to a per-day rate). -/
theorem extract_ingest_exact (rows : List Row) (h : String) (row : Row)
    (g : ℚ)
    (hfind : rows.find? (fun r => r.hostname = some h) = some row)
    (hg : row.giBIngested = some g) :
    extract_host_ingest rows h = g ∧
    ∀ (job : ValidationJob) (t : Nat),
      validate { job with timeframe_hours := t } (.ok rows)
        = validate job (.ok rows) := by
  constructor
  · simp only [extract_host_ingest, hfind, hg]
    show ((g / 24) * 24 : ℚ) = g
    rw [div_mul_cancel₀ g (by norm_num : (24 : ℚ) ≠ 0)]
  · intro job t
    rfl

theorem extract_ingest_exact_witness :
    (([{ hostname := some "h1", giBIngested := some 7 }] : List Row).find?
        (fun r => r.hostname = some "h1")
      = some { hostname := some "h1", giBIngested := some 7 } ∧
      ({ hostname := some "h1", giBIngested := some 7 } : Row).giBIngested
        = some 7) ∧
    (extract_host_ingest [{ hostname := some "h1", giBIngested := some 7 }] "h1"
      = 7 ∧
    ∀ (job : ValidationJob) (t : Nat),
      validate { job with timeframe_hours := t }
          (.ok [{ hostname := some "h1", giBIngested := some 7 }])
        = validate job (.ok [{ hostname := some "h1", giBIngested := some 7 }])) :=
  ⟨⟨by decide, rfl⟩,
    extract_ingest_exact [{ hostname := some "h1", giBIngested := some 7 }]
      "h1" { hostname := some "h1", giBIngested := some 7 } 7 (by decide) rfl⟩

end Nrdot
